import Mathlib

/-!
Shallow embedding of `cornac/models/mf/recom_mf.pyx` (class `MF`):
the SGD matrix-factorization trainer (`fit`), the pointwise predictor
(`score`) and the catalog ranker (`rank`).  Machine floats are modelled
as rationals; numpy arrays indexed by dense integer ids are modelled as
functions from `Nat`.  Randomness (the normal initialization of the
factor matrices) is passed to `fit` as an explicit argument.
-/

namespace Cornac

/-- The dataset collaborator (`train_set`).  `interactions` is the triple
list produced by `sp.find(train_set.matrix)` in the code's enumeration
order; `is_unk_user` / `is_unk_item` are the per-id predicates the
surrounding framework supplies. -/
structure TrainSet where
  num_users : Nat
  num_items : Nat
  global_mean : ℚ
  min_rating : ℚ
  interactions : List (Nat × Nat × ℚ)
  is_unk_user : Nat → Bool
  is_unk_item : Nat → Bool

/-- Placeholder dataset attached to a freshly constructed model: in the
Python code `self.train_set` does not exist before `fit`, and `score` /
`rank` guard on `self.fitted` before touching it, so these values are
never read on the untrained path. -/
def emptyTrainSet : TrainSet :=
  { num_users := 0
    num_items := 0
    global_mean := 0
    min_rating := 0
    interactions := []
    is_unk_user := fun _ => true
    is_unk_item := fun _ => true }

/-- The `MF` model object: constructor configuration plus the parameter
state written by `fit`. -/
structure MF where
  k : Nat
  max_iter : Nat
  learning_rate : ℚ
  lambda_reg : ℚ
  use_bias : Bool
  early_stop : Bool
  verbose : Bool
  fitted : Bool
  u_factors : Nat → Nat → ℚ
  i_factors : Nat → Nat → ℚ
  u_biases : Nat → ℚ
  i_biases : Nat → ℚ
  train_set : TrainSet

/-- `MF.__init__`: stores the configuration verbatim and marks the model
as not fitted.  The source performs no validation of `k`, `max_iter`,
`learning_rate` or `lambda_reg`. -/
def MF.init (k max_iter : Nat) (learning_rate lambda_reg : ℚ)
    (use_bias early_stop verbose : Bool) : MF :=
  { k := k
    max_iter := max_iter
    learning_rate := learning_rate
    lambda_reg := lambda_reg
    use_bias := use_bias
    early_stop := early_stop
    verbose := verbose
    fitted := false
    u_factors := fun _ _ => 0
    i_factors := fun _ _ => 0
    u_biases := fun _ => 0
    i_biases := fun _ => 0
    train_set := emptyTrainSet }

/-- `r_pred = 0; for factor in range(k): r_pred += x[factor] * y[factor]`,
also `np.dot` of two length-`k` rows. -/
def dotProd (k : Nat) (x y : Nat → ℚ) : ℚ :=
  (List.range k).foldl (fun acc factor => acc + x factor * y factor) 0

/-- Errors surfaced by `score` / `rank`: the `ValueError` raised when the
model is not fitted, and `ScoreException` carrying the offending ids. -/
inductive MFError where
  | notFitted : MFError
  | scoreException (user_id item_id : Nat) : MFError
deriving DecidableEq, Repr

/-- `MF.score`. -/
def MF.score (m : MF) (user_id item_id : Nat) : Except MFError ℚ :=
  if m.fitted = false then .error .notFitted
  else
    let unk_user := m.train_set.is_unk_user user_id
    let unk_item := m.train_set.is_unk_item item_id
    if m.use_bias then
      let s0 := m.train_set.global_mean
      let s1 := if unk_user = false then s0 + m.u_biases user_id else s0
      let s2 := if unk_item = false then s1 + m.i_biases item_id else s1
      let s3 := if unk_user = false && unk_item = false then
          s2 + dotProd m.k (m.u_factors user_id) (m.i_factors item_id)
        else s2
      .ok s3
    else
      if unk_user || unk_item then
        .error (.scoreException user_id item_id)
      else
        .ok (dotProd m.k (m.u_factors user_id) (m.i_factors item_id))

/-- The two dense factor matrices mutated by the SGD loop. -/
structure Factors where
  u_factors : Nat → Nat → ℚ
  i_factors : Nat → Nat → ℚ

/-- Pointwise update of one entry of a dense matrix. -/
def upd2 (M : Nat → Nat → ℚ) (r c : Nat) (v : ℚ) : Nat → Nat → ℚ :=
  fun r' c' => if r' = r ∧ c' = c then v else M r' c'

/-- Read-only inputs of one `fit` call: configuration scalars, the zero
bias vectors allocated at the start of `fit` (read inside the loop,
never written), and the interaction triples. -/
structure FitCfg where
  k : Nat
  lr : ℚ
  reg : ℚ
  use_bias : Bool
  early_stop : Bool
  mu : ℚ
  u_biases : Nat → ℚ
  i_biases : Nat → ℚ
  interactions : List (Nat × Nat × ℚ)

/-- `r_pred` for one interaction, from the current factor state. -/
def predRating (cfg : FitCfg) (st : Factors) (u i : Nat) : ℚ :=
  let r0 := dotProd cfg.k (st.u_factors u) (st.i_factors i)
  if cfg.use_bias then r0 + (cfg.mu + cfg.u_biases u + cfg.i_biases i) else r0

/-- Body of the inner `for factor in range(self.k)` loop: capture the two
current scalars `u_f`, `i_f`, then write both entries from them. -/
def factorStep (lr reg error : ℚ) (u i : Nat) (st : Factors) (factor : Nat) : Factors :=
  let u_f := st.u_factors u factor
  let i_f := st.i_factors i factor
  { u_factors := upd2 st.u_factors u factor (u_f + lr * (error * i_f - reg * u_f))
    i_factors := upd2 st.i_factors i factor (i_f + lr * (error * u_f - reg * i_f)) }

/-- The whole inner factor loop for one interaction. -/
def updateFactors (k : Nat) (lr reg error : ℚ) (u i : Nat) (st : Factors) : Factors :=
  (List.range k).foldl (factorStep lr reg error u i) st

/-- Processing of one `(u, i, r)` triple inside an epoch: prediction,
error, squared-error accumulation, factor update. -/
def interactionStep (cfg : FitCfg) (st : Factors × ℚ) (inter : Nat × Nat × ℚ) :
    Factors × ℚ :=
  let u := inter.1
  let i := inter.2.1
  let r := inter.2.2
  let error := r - predRating cfg st.1 u i
  (updateFactors cfg.k cfg.lr cfg.reg error u i st.1, st.2 + error * error)

/-- One epoch: a pass over every interaction, returning the updated
factors and the epoch loss `0.5 * (sum of squared errors)`. -/
def runEpoch (cfg : FitCfg) (st : Factors) : Factors × ℚ :=
  let p := cfg.interactions.foldl (interactionStep cfg) (st, 0)
  (p.1, (0.5 : ℚ) * p.2)

/-- The epoch loop of `fit`, on the number of remaining iterations, with
the previous epoch's loss (`last_loss`, initially 0) threaded through.
Returns the final factors and the number of completed epochs; the break
fires after the triggering epoch's pass, so that epoch counts. -/
def fitLoop (cfg : FitCfg) : Nat → ℚ → Factors → Factors × Nat
  | 0, _, st => (st, 0)
  | n + 1, last_loss, st =>
    let p := runEpoch cfg st
    if cfg.early_stop = true ∧ |p.2 - last_loss| < 1e-5 then (p.1, 1)
    else
      let q := fitLoop cfg n p.2 p.1
      (q.1, q.2 + 1)

/-- The read-only inputs `fit` derives from its own configuration and the
dataset; the bias vectors are `np.zeros`. -/
def MF.fitCfg (m : MF) (ts : TrainSet) : FitCfg :=
  { k := m.k
    lr := m.learning_rate
    reg := m.lambda_reg
    use_bias := m.use_bias
    early_stop := m.early_stop
    mu := ts.global_mean
    u_biases := fun _ => 0
    i_biases := fun _ => 0
    interactions := ts.interactions }

/-- The epoch loop run by `fit`, from the random initial factor matrices
`init_u`, `init_i`: final factors and completed-epoch count. -/
def MF.fitResult (m : MF) (ts : TrainSet) (init_u init_i : Nat → Nat → ℚ) :
    Factors × Nat :=
  fitLoop (m.fitCfg ts) m.max_iter 0 { u_factors := init_u, i_factors := init_i }

/-- Number of epochs completed by one `fit` call. -/
def MF.fitEpochs (m : MF) (ts : TrainSet) (init_u init_i : Nat → Nat → ℚ) : Nat :=
  (m.fitResult ts init_u init_i).2

/-- `MF.fit`: runs the epoch loop and stores the parameter state; the
bias vectors are stored (still zero) only when bias mode is on. -/
def MF.fit (m : MF) (ts : TrainSet) (init_u init_i : Nat → Nat → ℚ) : MF :=
  let f := (m.fitResult ts init_u init_i).1
  { m with
    fitted := true
    train_set := ts
    u_factors := f.u_factors
    i_factors := f.i_factors
    u_biases := if m.use_bias then (m.fitCfg ts).u_biases else m.u_biases
    i_biases := if m.use_bias then (m.fitCfg ts).i_biases else m.i_biases }

/-- Indices `0, …, n-1` sorted by descending score
(`scores.argsort()[::-1]`). -/
def argsortDesc (n : Nat) (score : Nat → ℚ) : List Nat :=
  (List.range n).mergeSort (fun a b => decide (score b ≤ score a))

/-- Modelled from the spec: `intersects` from `cornac.utils.generic_utils`
(not part of the sources) filters the first sequence down to the elements
of the second, preserving the first sequence's relative order
("ranked intersection, not re-sorting the candidate list itself"). -/
def intersects (arr1 arr2 : List Nat) : List Nat :=
  arr1.filter (fun x => decide (x ∈ arr2))

/-- `max(candidate_item_ids)` for a list of natural indices. -/
def listMax (l : List Nat) : Nat :=
  l.foldl max 0

/-- The padded score vector `pref_scores`: the known-item scores on
`0, …, num_items-1`, the dataset's minimum rating beyond. -/
def paddedScores (ts : TrainSet) (known_item_scores : Nat → ℚ) : Nat → ℚ :=
  fun j => if j < ts.num_items then known_item_scores j else ts.min_rating

/-- The tail of `rank` shared by the known-user and the
unknown-user-with-bias paths, from the per-item score vector. -/
def rankKnownScores (ts : TrainSet) (known_item_scores : Nat → ℚ)
    (candidate_item_ids : Option (List Nat)) : List Nat :=
  match candidate_item_ids with
  | none => argsortDesc ts.num_items known_item_scores
  | some cands =>
    let num_items := max ts.num_items (listMax cands + 1)
    intersects (argsortDesc num_items (paddedScores ts known_item_scores)) cands

/-- `np.dot(self.i_factors, self.u_factors[user_id])`: the per-item score
vector of a known user. -/
def knownItemScores (m : MF) (user_id : Nat) : Nat → ℚ :=
  fun i => dotProd m.k (m.i_factors i) (m.u_factors user_id)

/-- `MF.rank`; `default_rank` is the external default-ranking
collaborator inherited from `Recommender` (not part of the sources). -/
def MF.rank (m : MF) (default_rank : Option (List Nat) → List Nat)
    (user_id : Nat) (candidate_item_ids : Option (List Nat)) :
    Except MFError (List Nat) :=
  if m.fitted = false then .error .notFitted
  else if m.train_set.is_unk_user user_id then
    if m.use_bias then
      .ok (rankKnownScores m.train_set m.i_biases candidate_item_ids)
    else
      .ok (default_rank candidate_item_ids)
  else
    .ok (rankKnownScores m.train_set (knownItemScores m user_id) candidate_item_ids)

/-- C1: with bias mode enabled on a fitted model, `score` always succeeds
and returns the global mean, plus the user bias when the user is known,
plus the item bias when the item is known, plus the factor dot-product
exactly when both are known. -/
theorem score_bias_mode (m : MF) (u i : Nat)
    (hf : m.fitted = true) (hb : m.use_bias = true) :
    m.score u i = .ok (m.train_set.global_mean
      + (if m.train_set.is_unk_user u = false then m.u_biases u else 0)
      + (if m.train_set.is_unk_item i = false then m.i_biases i else 0)
      + (if m.train_set.is_unk_user u = false ∧ m.train_set.is_unk_item i = false
          then dotProd m.k (m.u_factors u) (m.i_factors i) else 0)) := by
  unfold MF.score
  rw [hf, hb]
  cases hU : m.train_set.is_unk_user u <;> cases hI : m.train_set.is_unk_item i <;>
    simp [hU, hI]

/-- A concrete fitted model with bias mode on, for witnesses; user 0 and
item id 5 are known/unknown according to the dataset bounds. -/
def tsW : TrainSet :=
  { num_users := 2
    num_items := 3
    global_mean := 3
    min_rating := 1
    interactions := [(0, 0, 5), (1, 2, 2)]
    is_unk_user := fun u => decide (2 ≤ u)
    is_unk_item := fun i => decide (3 ≤ i) }

/-- A fitted bias-mode model over `tsW`. -/
def mBias : MF :=
  { k := 1
    max_iter := 5
    learning_rate := 1/100
    lambda_reg := 1/50
    use_bias := true
    early_stop := false
    verbose := false
    fitted := true
    u_factors := fun u _ => (u : ℚ) + 1
    i_factors := fun i _ => (i : ℚ) + 2
    u_biases := fun u => (u : ℚ) / 10
    i_biases := fun i => (i : ℚ) / 5
    train_set := tsW }

/-- The same model with bias mode off. -/
def mNoBias : MF :=
  { mBias with use_bias := false }

theorem score_bias_mode_witness :
    mBias.score 0 5 = .ok (3 + 0 / 10 + 0 + 0) := by
  have h := score_bias_mode mBias 0 5 rfl rfl
  simpa [mBias, tsW] using h

/-- C2: with bias mode disabled on a fitted model, `score` fails with the
score exception carrying the two ids exactly when the user or the item is
unknown, and otherwise returns the bare factor dot-product. -/
theorem score_nobias_mode (m : MF) (u i : Nat)
    (hf : m.fitted = true) (hb : m.use_bias = false) :
    (m.score u i = .error (.scoreException u i)
      ↔ (m.train_set.is_unk_user u = true ∨ m.train_set.is_unk_item i = true))
    ∧ (m.train_set.is_unk_user u = false → m.train_set.is_unk_item i = false →
        m.score u i = .ok (dotProd m.k (m.u_factors u) (m.i_factors i))) := by
  unfold MF.score
  rw [hf, hb]
  cases hU : m.train_set.is_unk_user u <;> cases hI : m.train_set.is_unk_item i <;>
    simp [hU, hI]

theorem score_nobias_mode_witness :
    (mNoBias.score 0 5 = .error (.scoreException 0 5)
      ↔ (tsW.is_unk_user 0 = true ∨ tsW.is_unk_item 5 = true))
    ∧ (tsW.is_unk_user 0 = false → tsW.is_unk_item 5 = false →
        mNoBias.score 0 5 = .ok (dotProd 1 (mNoBias.u_factors 0) (mNoBias.i_factors 5))) :=
  score_nobias_mode mNoBias 0 5 rfl rfl

/-- C5: `score` and `rank` on a model with no completed fit both fail with
the untrained-model error, whatever the arguments. -/
theorem untrained_model_guard (m : MF) (hm : m.fitted = false)
    (default_rank : Option (List Nat) → List Nat) (u i : Nat)
    (cands : Option (List Nat)) :
    m.score u i = .error .notFitted
      ∧ m.rank default_rank u cands = .error .notFitted := by
  unfold MF.score MF.rank
  rw [hm]
  exact ⟨rfl, rfl⟩

theorem untrained_model_guard_witness :
    (MF.init 10 20 (1/100) (1/50) true false false).score 0 0 = .error .notFitted
      ∧ (MF.init 10 20 (1/100) (1/50) true false false).rank
          (fun _ => []) 0 (some [1, 2]) = .error .notFitted :=
  untrained_model_guard (MF.init 10 20 (1/100) (1/50) true false false) rfl
    (fun _ => []) 0 0 (some [1, 2])

/-- C9 counterexample: the constructor performs no validation; an invalid
configuration (k = 0, max_iter = 0, negative lambda_reg) is accepted and
stored verbatim, with no error raised at construction time. -/
theorem init_accepts_invalid_config :
    (MF.init 0 0 (1/100) (-(1/50)) true false false).k = 0
      ∧ (MF.init 0 0 (1/100) (-(1/50)) true false false).max_iter = 0
      ∧ (MF.init 0 0 (1/100) (-(1/50)) true false false).lambda_reg = -(1/50)
      ∧ (MF.init 0 0 (1/100) (-(1/50)) true false false).fitted = false :=
  ⟨rfl, rfl, rfl, rfl⟩

/-- C9 amended: construction never rejects a configuration; every
configuration, including non-positive `k` / `max_iter` and negative
`lambda_reg`, is stored unchanged on a model marked not fitted. -/
theorem init_stores_config (k max_iter : Nat) (lr reg : ℚ)
    (use_bias early_stop verbose : Bool) :
    (MF.init k max_iter lr reg use_bias early_stop verbose).k = k
      ∧ (MF.init k max_iter lr reg use_bias early_stop verbose).max_iter = max_iter
      ∧ (MF.init k max_iter lr reg use_bias early_stop verbose).learning_rate = lr
      ∧ (MF.init k max_iter lr reg use_bias early_stop verbose).lambda_reg = reg
      ∧ (MF.init k max_iter lr reg use_bias early_stop verbose).use_bias = use_bias
      ∧ (MF.init k max_iter lr reg use_bias early_stop verbose).early_stop = early_stop
      ∧ (MF.init k max_iter lr reg use_bias early_stop verbose).fitted = false :=
  ⟨rfl, rfl, rfl, rfl, rfl, rfl, rfl⟩

/-- Columns not yet visited by the inner factor loop keep their values. -/
lemma foldl_factorStep_not_mem (lr reg error : ℚ) (u i : Nat) :
    ∀ (L : List Nat) (st : Factors) (c : Nat), c ∉ L →
      ((L.foldl (factorStep lr reg error u i) st).u_factors u c = st.u_factors u c
        ∧ (L.foldl (factorStep lr reg error u i) st).i_factors i c = st.i_factors i c)
  | [], _, _, _ => ⟨rfl, rfl⟩
  | a :: L, st, c, h => by
    simp only [List.foldl_cons]
    have hca : c ≠ a := fun hc => h (hc ▸ List.mem_cons_self a L)
    have hL : c ∉ L := fun hc => h (List.mem_cons_of_mem a hc)
    rcases foldl_factorStep_not_mem lr reg error u i L
      (factorStep lr reg error u i st a) c hL with ⟨h1, h2⟩
    rw [h1, h2]
    constructor
    · simp [factorStep, upd2, hca]
    · simp [factorStep, upd2, hca]

/-- Over a duplicate-free list of columns, the inner factor loop writes
each visited column of the two touched rows once, from the pre-loop
values of both entries at that column. -/
lemma foldl_factorStep_mem (lr reg error : ℚ) (u i : Nat) :
    ∀ (L : List Nat) (st : Factors) (c : Nat), L.Nodup → c ∈ L →
      ((L.foldl (factorStep lr reg error u i) st).u_factors u c
          = st.u_factors u c + lr * (error * st.i_factors i c - reg * st.u_factors u c)
        ∧ (L.foldl (factorStep lr reg error u i) st).i_factors i c
          = st.i_factors i c + lr * (error * st.u_factors u c - reg * st.i_factors i c))
  | a :: L, st, c, hnd, hc => by
    have hna : a ∉ L := (List.nodup_cons.mp hnd).1
    have hndL : L.Nodup := (List.nodup_cons.mp hnd).2
    simp only [List.foldl_cons]
    rcases List.mem_cons.mp hc with rfl | hcL
    · rcases foldl_factorStep_not_mem lr reg error u i L
        (factorStep lr reg error u i st c) c hna with ⟨h1, h2⟩
      rw [h1, h2]
      constructor
      · simp [factorStep, upd2]
      · simp [factorStep, upd2]
    · have hca : c ≠ a := fun hc' => hna (hc' ▸ hcL)
      rcases foldl_factorStep_mem lr reg error u i L
        (factorStep lr reg error u i st a) c hndL hcL with ⟨h1, h2⟩
      rw [h1, h2]
      constructor
      · simp [factorStep, upd2, hca]
      · simp [factorStep, upd2, hca]

/-- C3: for each interaction and each latent dimension below `k`, the SGD
step is simultaneous: the post-update user entry is computed from the
pre-update item entry and vice versa, with the error itself computed from
the pre-update state. -/
theorem sgd_simultaneous_update (cfg : FitCfg) (st : Factors) (loss : ℚ)
    (u i : Nat) (r : ℚ) (f : Nat) (hf : f < cfg.k) :
    ((interactionStep cfg (st, loss) (u, i, r)).1.u_factors u f
        = st.u_factors u f
          + cfg.lr * ((r - predRating cfg st u i) * st.i_factors i f
              - cfg.reg * st.u_factors u f))
    ∧ ((interactionStep cfg (st, loss) (u, i, r)).1.i_factors i f
        = st.i_factors i f
          + cfg.lr * ((r - predRating cfg st u i) * st.u_factors u f
              - cfg.reg * st.i_factors i f)) := by
  have h := foldl_factorStep_mem cfg.lr cfg.reg (r - predRating cfg st u i) u i
    (List.range cfg.k) st f (List.nodup_range cfg.k) (List.mem_range.mpr hf)
  simpa [interactionStep, updateFactors] using h

/-- A concrete factor state for witnesses. -/
def stW : Factors :=
  { u_factors := fun _ _ => 1/10
    i_factors := fun _ _ => 1/5 }

theorem sgd_simultaneous_update_witness :
    ((interactionStep (mBias.fitCfg tsW) (stW, 0) (0, 1, 4)).1.u_factors 0 0
        = stW.u_factors 0 0
          + (mBias.fitCfg tsW).lr * ((4 - predRating (mBias.fitCfg tsW) stW 0 1) * stW.i_factors 1 0
              - (mBias.fitCfg tsW).reg * stW.u_factors 0 0))
    ∧ ((interactionStep (mBias.fitCfg tsW) (stW, 0) (0, 1, 4)).1.i_factors 1 0
        = stW.i_factors 1 0
          + (mBias.fitCfg tsW).lr * ((4 - predRating (mBias.fitCfg tsW) stW 0 1) * stW.u_factors 0 0
              - (mBias.fitCfg tsW).reg * stW.i_factors 1 0)) :=
  sgd_simultaneous_update (mBias.fitCfg tsW) stW 0 0 1 4 0 (by decide)

/-- C4: with bias mode enabled, whatever the dataset, the initial factors
and the epoch budget, the bias vectors stored at the end of `fit` are
identically zero: they are allocated as zeros and the optimizer never
writes them. -/
theorem fit_biases_stay_zero (m : MF) (ts : TrainSet)
    (init_u init_i : Nat → Nat → ℚ) (hb : m.use_bias = true) (u i : Nat) :
    (m.fit ts init_u init_i).u_biases u = 0
      ∧ (m.fit ts init_u init_i).i_biases i = 0 := by
  unfold MF.fit
  simp [hb, MF.fitCfg]

theorem fit_biases_stay_zero_witness :
    (mBias.fit tsW (fun _ _ => 1) (fun _ _ => 1)).u_biases 0 = 0
      ∧ (mBias.fit tsW (fun _ _ => 1) (fun _ _ => 1)).i_biases 2 = 0 :=
  fit_biases_stay_zero mBias tsW (fun _ _ => 1) (fun _ _ => 1) rfl 0 2

/-- The epoch loop never completes more epochs than it has remaining. -/
lemma fitLoop_count_le (cfg : FitCfg) :
    ∀ (n : Nat) (last : ℚ) (st : Factors), (fitLoop cfg n last st).2 ≤ n
  | 0, _, _ => Nat.le_refl 0
  | n + 1, last, st => by
    simp only [fitLoop]
    split
    · exact Nat.succ_le_succ (Nat.zero_le n)
    · exact Nat.succ_le_succ (fitLoop_count_le cfg n _ _)

/-- C6: a fit completes at most `max_iter` epochs, and whenever early
stopping is on and the epoch about to run brings the absolute loss delta
below `1e-5`, the loop returns right after that epoch with exactly that
one further epoch completed (its factor update kept). -/
theorem fit_epoch_bound_and_early_stop (m : MF) (ts : TrainSet)
    (init_u init_i : Nat → Nat → ℚ) (cfg : FitCfg) (n : Nat) (last : ℚ)
    (st : Factors) :
    (m.fitEpochs ts init_u init_i ≤ m.max_iter)
    ∧ (cfg.early_stop = true → |(runEpoch cfg st).2 - last| < 1e-5 →
        fitLoop cfg (n + 1) last st = ((runEpoch cfg st).1, 1)) := by
  constructor
  · exact fitLoop_count_le (m.fitCfg ts) m.max_iter 0 _
  · intro hes hdelta
    simp only [fitLoop]
    rw [if_pos ⟨hes, hdelta⟩]

/-- `mBias` with early stopping switched on. -/
def mES : MF :=
  { mBias with early_stop := true }

/-- `tsW` with no observed interactions, so every epoch's loss is 0. -/
def tsEmpty : TrainSet :=
  { tsW with interactions := [] }

theorem fit_epoch_bound_and_early_stop_witness :
    (mES.fitEpochs tsEmpty (fun _ _ => 0) (fun _ _ => 0) ≤ mES.max_iter)
    ∧ fitLoop (mES.fitCfg tsEmpty) (2 + 1) 0 stW
        = ((runEpoch (mES.fitCfg tsEmpty) stW).1, 1) := by
  have h := fit_epoch_bound_and_early_stop mES tsEmpty (fun _ _ => 0) (fun _ _ => 0)
    (mES.fitCfg tsEmpty) 2 0 stW
  refine ⟨h.1, h.2 rfl ?_⟩
  norm_num [runEpoch, MF.fitCfg, mES, mBias, tsEmpty, tsW]

/-- The running sum of squared errors only grows along an epoch. -/
lemma foldl_interactionStep_loss_mono (cfg : FitCfg) :
    ∀ (L : List (Nat × Nat × ℚ)) (st : Factors × ℚ),
      st.2 ≤ (L.foldl (interactionStep cfg) st).2
  | [], _ => le_refl _
  | x :: L, st => by
    simp only [List.foldl_cons]
    refine le_trans ?_ (foldl_interactionStep_loss_mono cfg L (interactionStep cfg st x))
    simp only [interactionStep]
    exact le_add_of_nonneg_right (mul_self_nonneg _)

/-- Epoch losses are non-negative. -/
lemma runEpoch_loss_nonneg (cfg : FitCfg) (st : Factors) :
    0 ≤ (runEpoch cfg st).2 := by
  have h := foldl_interactionStep_loss_mono cfg cfg.interactions (st, 0)
  simp only [runEpoch]
  positivity

/-- C10: with early stopping on, the first epoch's loss is compared to an
initial previous-loss of 0, so whenever the first epoch's loss is already
below `1e-5` the fit completes exactly one epoch, whatever `max_iter`
(any positive value). -/
theorem first_epoch_early_stop (m : MF) (ts : TrainSet)
    (init_u init_i : Nat → Nat → ℚ) (n : Nat)
    (hes : m.early_stop = true) (hmi : m.max_iter = n + 1)
    (hloss : (runEpoch (m.fitCfg ts)
        { u_factors := init_u, i_factors := init_i }).2 < 1e-5) :
    m.fitEpochs ts init_u init_i = 1 := by
  have hnn : 0 ≤ (runEpoch (m.fitCfg ts)
      { u_factors := init_u, i_factors := init_i }).2 :=
    runEpoch_loss_nonneg _ _
  unfold MF.fitEpochs MF.fitResult
  rw [hmi]
  simp only [fitLoop]
  rw [if_pos ⟨hes, by rwa [sub_zero, abs_of_nonneg hnn]⟩]

theorem first_epoch_early_stop_witness :
    mES.fitEpochs tsEmpty (fun _ _ => 1) (fun _ _ => 1) = 1 := by
  refine first_epoch_early_stop mES tsEmpty (fun _ _ => 1) (fun _ _ => 1) 4 rfl rfl ?_
  norm_num [runEpoch, MF.fitCfg, mES, mBias, tsEmpty, tsW]

/-- The descending argsort is pairwise non-increasing in score. -/
lemma argsortDesc_sorted (n : Nat) (s : Nat → ℚ) :
    (argsortDesc n s).Pairwise (fun a b => s b ≤ s a) := by
  have htrans : ∀ a b c : Nat, (fun a b => decide (s b ≤ s a)) a b = true →
      (fun a b => decide (s b ≤ s a)) b c = true →
      (fun a b => decide (s b ≤ s a)) a c = true := by
    intro a b c hab hbc
    simp only [decide_eq_true_eq] at hab hbc ⊢
    exact le_trans hbc hab
  have htotal : ∀ a b : Nat, ((fun a b => decide (s b ≤ s a)) a b
      || (fun a b => decide (s b ≤ s a)) b a) = true := by
    intro a b
    simp only [Bool.or_eq_true, decide_eq_true_eq]
    exact le_total (s b) (s a)
  have h := List.sorted_mergeSort htrans htotal (List.range n)
  exact h.imp fun hab => of_decide_eq_true hab

/-- The descending argsort is a permutation of `0, …, n-1`. -/
lemma argsortDesc_perm (n : Nat) (s : Nat → ℚ) :
    (argsortDesc n s).Perm (List.range n) :=
  List.mergeSort_perm (List.range n) _

lemma le_foldl_max_init : ∀ (l : List Nat) (a : Nat), a ≤ l.foldl max a
  | [], a => le_refl a
  | b :: l, a => le_trans (le_max_left a b) (le_foldl_max_init l (max a b))

/-- Every member of a list is bounded by the list's running maximum. -/
lemma mem_le_listMax : ∀ (l : List Nat) (a c : Nat), c ∈ l → c ≤ l.foldl max a
  | b :: l, a, c, h => by
    rcases List.mem_cons.mp h with rfl | h'
    · exact le_trans (le_max_right a c) (le_foldl_max_init l (max a c))
    · exact mem_le_listMax l (max a b) c h'

/-- C7: for a fitted model and a known user, ranking against a non-empty
duplicate-free candidate list succeeds with the ranked intersection: the
sorted order of the score vector padded with the minimum rating beyond
the catalog, filtered to the candidates, hence a permutation of the
candidate list ordered by non-increasing padded score, with every
out-of-catalog slot scored at the minimum rating. -/
theorem rank_candidates_known_user (m : MF)
    (default_rank : Option (List Nat) → List Nat) (u : Nat) (cands : List Nat)
    (hf : m.fitted = true) (hu : m.train_set.is_unk_user u = false)
    (hne : cands ≠ []) (hnd : cands.Nodup) :
    ∃ out, m.rank default_rank u (some cands) = .ok out
      ∧ out = intersects
          (argsortDesc (max m.train_set.num_items (listMax cands + 1))
            (paddedScores m.train_set (knownItemScores m u))) cands
      ∧ out.Perm cands
      ∧ out.Pairwise (fun a b =>
          paddedScores m.train_set (knownItemScores m u) b
            ≤ paddedScores m.train_set (knownItemScores m u) a)
      ∧ (∀ j, m.train_set.num_items ≤ j →
          paddedScores m.train_set (knownItemScores m u) j = m.train_set.min_rating) := by
  refine ⟨intersects
      (argsortDesc (max m.train_set.num_items (listMax cands + 1))
        (paddedScores m.train_set (knownItemScores m u))) cands, ?_, rfl, ?_, ?_, ?_⟩
  · unfold MF.rank rankKnownScores
    simp [hf, hu]
  · refine List.perm_iff_count.mpr fun a => ?_
    simp only [intersects]
    by_cases ha : a ∈ cands
    · have h1 : List.count a (List.filter (fun x => decide (x ∈ cands))
            (argsortDesc (max m.train_set.num_items (listMax cands + 1))
              (paddedScores m.train_set (knownItemScores m u))))
          = List.count a (argsortDesc (max m.train_set.num_items (listMax cands + 1))
              (paddedScores m.train_set (knownItemScores m u))) :=
        List.count_filter (decide_eq_true ha)
      have h2 := (argsortDesc_perm (max m.train_set.num_items (listMax cands + 1))
        (paddedScores m.train_set (knownItemScores m u))).count_eq a
      have h3 : List.count a (List.range (max m.train_set.num_items (listMax cands + 1)))
          = 1 :=
        List.count_eq_one_of_mem (List.nodup_range _)
          (List.mem_range.mpr (Nat.lt_of_lt_of_le
            (Nat.lt_succ_of_le (mem_le_listMax cands 0 a ha))
            (le_max_right _ _)))
      have h4 : List.count a cands = 1 := List.count_eq_one_of_mem hnd ha
      rw [h1, h2, h3, h4]
    · rw [List.count_eq_zero_of_not_mem, List.count_eq_zero_of_not_mem ha]
      intro hmem
      exact ha (of_decide_eq_true (List.mem_filter.mp hmem).2)
  · exact List.Pairwise.sublist (List.filter_sublist _) (argsortDesc_sorted _ _)
  · intro j hj
    simp [paddedScores, Nat.not_lt.mpr hj]

theorem rank_candidates_known_user_witness :
    ∃ out, mBias.rank (fun _ => []) 0 (some [5, 1]) = .ok out
      ∧ out = intersects
          (argsortDesc (max tsW.num_items (listMax [5, 1] + 1))
            (paddedScores tsW (knownItemScores mBias 0))) [5, 1]
      ∧ out.Perm [5, 1]
      ∧ out.Pairwise (fun a b =>
          paddedScores tsW (knownItemScores mBias 0) b
            ≤ paddedScores tsW (knownItemScores mBias 0) a)
      ∧ (∀ j, tsW.num_items ≤ j →
          paddedScores tsW (knownItemScores mBias 0) j = tsW.min_rating) :=
  rank_candidates_known_user mBias (fun _ => []) 0 [5, 1] rfl rfl
    (by decide) (by decide)

/-- C8: for a fitted model and an unknown user, `rank` uses the item-bias
vector as the score vector when bias mode is on, delegates to the default
ranking collaborator when bias mode is off, and in both cases never
consults the user factor matrix. -/
theorem rank_unknown_user (m : MF) (default_rank : Option (List Nat) → List Nat)
    (u : Nat) (cands : Option (List Nat))
    (hf : m.fitted = true) (hu : m.train_set.is_unk_user u = true) :
    (m.use_bias = true →
        m.rank default_rank u cands = .ok (rankKnownScores m.train_set m.i_biases cands))
    ∧ (m.use_bias = false → m.rank default_rank u cands = .ok (default_rank cands))
    ∧ (∀ uf, MF.rank { m with u_factors := uf } default_rank u cands
        = m.rank default_rank u cands) := by
  refine ⟨fun hb => ?_, fun hb => ?_, fun uf => ?_⟩
  · unfold MF.rank
    simp [hf, hu, hb]
  · unfold MF.rank
    simp [hf, hu, hb]
  · unfold MF.rank
    cases hb : m.use_bias <;> simp [hf, hu, hb]

theorem rank_unknown_user_witness :
    (mBias.use_bias = true →
        mBias.rank (fun _ => [9]) 7 (some [1, 0])
          = .ok (rankKnownScores tsW mBias.i_biases (some [1, 0])))
    ∧ (mBias.use_bias = false →
        mBias.rank (fun _ => [9]) 7 (some [1, 0]) = .ok [9])
    ∧ (∀ uf, MF.rank { mBias with u_factors := uf } (fun _ => [9]) 7 (some [1, 0])
        = mBias.rank (fun _ => [9]) 7 (some [1, 0])) :=
  rank_unknown_user mBias (fun _ => [9]) 7 (some [1, 0]) rfl rfl

end Cornac
